import Mathlib

/-!
Verification of the ToastifyPro notification library core (source file
`src/unnamed/part_000`, v1.6.0 — the largest and most featureful source
variant, which the other two files are older editions of).

The development shallowly embeds the stateful parts of the library that
the specification talks about:

* exit-animation selection in `removeToast` (string `includes` chain over
  the container position class, plus the final keyframe transforms of the
  five `carSwipe*` animations);
* the pause-on-hover countdown bookkeeping installed by `show`
  (`mouseenter` / `mouseleave` handlers mutating `toastData`);
* the per-instance active-toast queue: `show`'s maxToasts eviction loop,
  `removeToast`, `getActiveCount`;
* the process-wide confirmation singleton (`globalActiveConfirmation`,
  `conf`), the confirmation dialog state machine (`handleConfirmation`,
  `setLoading`, `closeConfirmation`, `cleanupAndClose`), and the global
  Escape key handler (`setupKeyboardNavigation`).

Machine integers do not overflow in any of the modelled code paths
(timestamps and counters), so numbers are modelled as `Nat` / `Int`.
-/

namespace ToastifyPro

/-! ## JS string `includes`

`removeToast` dispatches on `position.includes('bottom')` etc.; we model
JavaScript `String.prototype.includes` by hand on character lists. -/

/-- Does the character list begin with `sub`?  (`sub` empty: always.) -/
def leadsWith : List Char → List Char → Bool
  | _, [] => true
  | [], _ :: _ => false
  | a :: as, b :: bs => a == b && leadsWith as bs

/-- Does `sub` occur contiguously inside the list? -/
def hasInside : List Char → List Char → Bool
  | [], sub => sub.isEmpty
  | a :: rest, sub => leadsWith (a :: rest) sub || hasInside rest sub

/-- JavaScript `s.includes(sub)`. -/
def jsIncludes (s sub : String) : Bool :=
  hasInside s.data sub.data

/-! ## Exit-animation selection (`removeToast`, part_000 lines 1288–1308)

The source reads the position class off the container and picks a swipe
animation with an if/else-if chain; the trailing default equals the
initial `'carSwipeBottom'` fallback. -/

/-- Embeds the `swipeAnimation` selection chain of `removeToast`. -/
def swipeAnimationFor (position : String) : String :=
  if jsIncludes position "bottom" then "carSwipeBottom"
  else if jsIncludes position "top" then "carSwipeTop"
  else if jsIncludes position "left" then "carSwipeLeft"
  else if jsIncludes position "right" then "carSwipeRight"
  else if jsIncludes position "center" then "carSwipeCenter"
  else "carSwipeBottom"

/-- Final (100%) keyframe transform of a swipe animation: x/y translation
in pixels and the scale target in percent. -/
structure FinalTransform where
  dx : Int
  dy : Int
  scalePct : Nat
  deriving DecidableEq

/-- Final keyframes of the five `@keyframes carSwipe*` blocks injected by
`injectStyles` (part_000 lines 283–356): `carSwipeBottom` ends at
`scale(0.8) translateY(200px)`, `carSwipeTop` at `scale(0.8)
translateY(-200px)`, `carSwipeLeft` at `scale(0.8) translateX(-300px)`,
`carSwipeRight` at `scale(0.8) translateX(300px)` and `carSwipeCenter`
at `scale(0.6) translateY(150px)`. -/
def keyframeFinal : String → Option FinalTransform
  | "carSwipeBottom" => some ⟨0, 200, 80⟩
  | "carSwipeTop" => some ⟨0, -200, 80⟩
  | "carSwipeLeft" => some ⟨-300, 0, 80⟩
  | "carSwipeRight" => some ⟨300, 0, 80⟩
  | "carSwipeCenter" => some ⟨0, 150, 60⟩
  | _ => none

/-- Exit motion a record at a given position receives on removal. -/
def exitFinal (position : String) : Option FinalTransform :=
  keyframeFinal (swipeAnimationFor position)

/-! ## Pause-on-hover countdown (`show`, part_000 lines 1140–1211)

`show` stores `toastData = { element, timeout, remainingTime, startTime,
isPaused }` and wires `mouseenter` / `mouseleave`.  `clearTimeout` never
nulls the stored `toastData.timeout` id, so we keep the stored id
(`timeoutField`, browser timer ids are non-zero hence truthy) separately
from whether a timer is actually scheduled (`timerScheduled`). -/

structure HoverTimerState where
  remainingTime : Int
  startTime : Int
  isPaused : Bool
  /-- The last value assigned to `toastData.timeout` (`none` = JS `null`);
  a stale id stays here after `clearTimeout`. -/
  timeoutField : Option Nat
  /-- Whether a `setTimeout` dismissal is actually pending. -/
  timerScheduled : Bool
  nextHandle : Nat
  deriving DecidableEq

/-- State of `toastData` right after creation with the given timeout. -/
def timerInit (timeout : Int) : HoverTimerState :=
  { remainingTime := timeout, startTime := 0, isPaused := false,
    timeoutField := none, timerScheduled := false, nextHandle := 1 }

/-- Tail of `show` for `timeout > 0`: `startTime = Date.now()` and a
dismissal `setTimeout` is scheduled, its id stored in `toastData.timeout`. -/
def startCountdown (now : Int) (s : HoverTimerState) : HoverTimerState :=
  { s with startTime := now, timeoutField := some s.nextHandle,
           timerScheduled := true, nextHandle := s.nextHandle + 1 }

/-- The `mouseenter` handler: `if (toastData.timeout) { clearTimeout(...);
isPaused = true; remainingTime -= (Date.now() - startTime); }`.  The
guard tests the stored id for truthiness — `clearTimeout` does not null
it, so the guard stays true after a first pause. -/
def pointerEnter (now : Int) (s : HoverTimerState) : HoverTimerState :=
  if s.timeoutField.isSome then
    { s with timerScheduled := false, isPaused := true,
             remainingTime := s.remainingTime - (now - s.startTime) }
  else s

/-- Observable effects a pointer-leave handler can emit. -/
inductive TimerEvent
  /-- A dismissal `setTimeout(..., delayMs)` was scheduled. -/
  | scheduleDismiss (delayMs : Int)
  /-- The completion (dismissal) callback was invoked synchronously.
  The source's handler never emits this effect. -/
  | fireCompletionNow
  deriving DecidableEq

/-- The `mouseleave` handler: `if (toastData.isPaused &&
toastData.remainingTime > 0) { isPaused = false; startTime = Date.now();
timeout = setTimeout(removeToast, remainingTime); }`; otherwise nothing
happens. -/
def pointerLeave (now : Int) (s : HoverTimerState) :
    HoverTimerState × List TimerEvent :=
  if s.isPaused ∧ 0 < s.remainingTime then
    ({ s with isPaused := false, startTime := now,
              timeoutField := some s.nextHandle, timerScheduled := true,
              nextHandle := s.nextHandle + 1 },
     [TimerEvent.scheduleDismiss s.remainingTime])
  else (s, [])

/-- A reachable `toastData` state: countdown of 3000 ms started at t=0,
paused at t=2000 (remaining 1000), paused again at t=2500 without an
intervening leave (remaining drops to −1500). -/
def pausedExpired : HoverTimerState :=
  pointerEnter 2500 (pointerEnter 2000 (startCountdown 0 (timerInit 3000)))

/-! ## Per-instance active-toast queue
(`show` lines 1073–1082 and 1159–1232, `removeToast` lines 1271–1330,
`getActiveCount` lines 1354–1356 of part_000)

A `ToastData` keeps the toast's identity (standing in for the DOM element
reference) and the stored `toastData.timeout` id.  The instance state
tracks, besides `activeToasts`:

* `dom` — element ids currently attached to the container, in DOM order
  (`newestOnTop` inserts before the first child, otherwise appends);
  `removeToast` detaches an element only 400 ms later, in the exit
  animation callback, so within a synchronous step `dom` only grows;
* `pendingTimers` — ids of `setTimeout` dismissals actually scheduled
  (`clearTimeout` removes an id here);
* `exitScheduled` — ids whose exit animation and deferred DOM removal
  `removeToast` has started, in order. -/

structure ToastData where
  id : Nat
  /-- The stored `toastData.timeout` id (`none` = JS `null`). -/
  timeoutHandle : Option Nat
  deriving DecidableEq

structure InstanceState where
  activeToasts : List ToastData
  dom : List Nat
  pendingTimers : List Nat
  exitScheduled : List Nat
  nextToastId : Nat
  nextTimerId : Nat
  deriving DecidableEq

/-- State of a fresh `ToastifyPro` instance (`this.activeToasts = []`,
empty container). -/
def initState : InstanceState :=
  { activeToasts := [], dom := [], pendingTimers := [], exitScheduled := [],
    nextToastId := 0, nextTimerId := 0 }

/-- `if (toastData.timeout) clearTimeout(toastData.timeout)`. -/
def clearStoredTimeout (pending : List Nat) (h : Option Nat) : List Nat :=
  match h with
  | some t => pending.filter (fun x => x != t)
  | none => pending

/-- Embeds `removeToast(toast)`: bail out unless the element is attached;
`findIndex` the record in `activeToasts` and, only when found, clear its
stored timeout and splice it out; in every attached case start the exit
animation and schedule the DOM detach for 400 ms later. -/
def removeToast (s : InstanceState) (elemId : Nat) : InstanceState :=
  if elemId ∈ s.dom then
    let s1 :=
      match s.activeToasts.find? (fun t => t.id == elemId) with
      | some t =>
          { s with
              activeToasts := s.activeToasts.eraseP (fun u => u.id == elemId),
              pendingTimers := clearStoredTimeout s.pendingTimers t.timeoutHandle }
      | none => s
    { s1 with exitScheduled := s1.exitScheduled ++ [elemId] }
  else s

/-- One iteration of `show`'s eviction loop: `const oldestToast =
this.activeToasts.shift(); if (oldestToast && oldestToast.element)
this.removeToast(oldestToast.element);`.  Note the record is shifted out
of `activeToasts` *before* `removeToast` runs. -/
def evictOnce (s : InstanceState) : InstanceState :=
  match s.activeToasts with
  | [] => s
  | t :: rest => removeToast { s with activeToasts := rest } t.id

/-- `for (let i = 0; i < toastsToRemove; i++) ...`. -/
def evictLoop : Nat → InstanceState → InstanceState
  | 0, s => s
  | n + 1, s => evictLoop n (evictOnce s)

/-- Embeds `show(message, type, opts)`'s state effects for a non-empty
valid message: evict when `maxToasts > 0 && activeToasts.length >=
maxToasts`, attach the new element (head when `newestOnTop` and the
container is non-empty, else tail), push the new record, and when
`timeout > 0` schedule the auto-dismiss and store its id. -/
def showToast (s : InstanceState) (maxToasts : Nat) (newestOnTop : Bool)
    (timeout : Nat) : InstanceState :=
  let s1 :=
    if 0 < maxToasts ∧ maxToasts ≤ s.activeToasts.length then
      evictLoop (s.activeToasts.length - maxToasts + 1) s
    else s
  let tid := s1.nextToastId
  let dom1 := if newestOnTop ∧ s1.dom ≠ [] then tid :: s1.dom else s1.dom ++ [tid]
  if 0 < timeout then
    { activeToasts := s1.activeToasts ++ [⟨tid, some s1.nextTimerId⟩],
      dom := dom1,
      pendingTimers := s1.pendingTimers ++ [s1.nextTimerId],
      exitScheduled := s1.exitScheduled,
      nextToastId := tid + 1,
      nextTimerId := s1.nextTimerId + 1 }
  else
    { activeToasts := s1.activeToasts ++ [⟨tid, none⟩],
      dom := dom1,
      pendingTimers := s1.pendingTimers,
      exitScheduled := s1.exitScheduled,
      nextToastId := tid + 1,
      nextTimerId := s1.nextTimerId }

/-- `getActiveCount()` returns `this.activeToasts.length`. -/
def getActiveCount (s : InstanceState) : Nat :=
  s.activeToasts.length

/-- `m` successive `show` calls on one fresh instance with a fixed
`maxToasts` limit, default `newestOnTop = true` and timeout 3000. -/
def admitSeq (maxToasts : Nat) : Nat → InstanceState
  | 0 => initState
  | m + 1 => showToast (admitSeq maxToasts m) maxToasts true 3000

/-- The record `show` creates for the `i`-th admission in `admitSeq`
(toast ids and timer ids both count up from 0 in lock-step there). -/
def mkToast (i : Nat) : ToastData := ⟨i, some i⟩

/-- Closed form of `admitSeq N m` for `N > 0`: the surviving records are
the most recent `min m N` admissions, the `m - min m N` oldest have had
their exit animation started (in admission order), every element ever
created is still in the DOM (newest first), and — because the eviction
loop shifts a record out of `activeToasts` before calling `removeToast`,
whose `findIndex` then misses — every dismissal timer ever scheduled is
still pending. -/
def stateModel (N m : Nat) : InstanceState :=
  { activeToasts := (List.range' (m - min m N) (min m N)).map mkToast,
    dom := (List.range m).reverse,
    pendingTimers := List.range m,
    exitScheduled := List.range (m - min m N),
    nextToastId := m,
    nextTimerId := m }

/-! ## Process-wide confirmation singleton
(`globalActiveConfirmation`, module level line 33; `conf` lines 1652–1670
and 2086–2093 of part_000)

`conf` is a method, but it reads and writes only the module-level
`globalActiveConfirmation` and per-call locals, so its singleton
behaviour is identical for every `ToastifyPro` instance; the operations
below therefore carry the calling instance id only to show it is
ignored.  `openDialogs` tracks the confirmation dialog elements created
and not yet closed. -/

structure ConfGlobalState where
  /-- `globalActiveConfirmation` (the handle id it holds, `none` = null). -/
  active : Option Nat
  /-- Confirmation dialogs currently open. -/
  openDialogs : List Nat
  /-- Number of confirmation dialogs ever created. -/
  createdCount : Nat
  /-- Number of shake (attention) animations triggered on an existing dialog. -/
  shakes : Nat
  nextId : Nat
  deriving DecidableEq

def confInitial : ConfGlobalState :=
  { active := none, openDialogs := [], createdCount := 0, shakes := 0, nextId := 0 }

/-- Embeds `conf(...)` (and its alias `confirm`): when
`globalActiveConfirmation` is set (and its element attached), replay the
shake animation on the existing dialog and return the existing handle;
otherwise build a new dialog, store its control object in
`globalActiveConfirmation` and return it.  The second component is the
returned handle's id. -/
def confCall (_instanceId : Nat) (s : ConfGlobalState) : ConfGlobalState × Nat :=
  match s.active with
  | some h => ({ s with shakes := s.shakes + 1 }, h)
  | none =>
      let h := s.nextId
      ({ s with active := some h, openDialogs := s.openDialogs ++ [h],
                createdCount := s.createdCount + 1, nextId := h + 1 }, h)

/-- Embeds `closeConfirmation` of the currently open dialog:
`globalActiveConfirmation = null` and the dialog is removed. -/
def confCloseActive (s : ConfGlobalState) : ConfGlobalState :=
  match s.active with
  | some h => { s with active := none,
                       openDialogs := s.openDialogs.filter (fun x => x != h) }
  | none => s

/-- An interleaving step: any instance may request a confirmation, or the
open one may be closed (button, Escape or handle close). -/
inductive ConfOp
  | confFrom (instanceId : Nat)
  | closeActive
  deriving DecidableEq

def confStep (s : ConfGlobalState) : ConfOp → ConfGlobalState
  | ConfOp.confFrom i => (confCall i s).1
  | ConfOp.closeActive => confCloseActive s

/-- Run a sequence of confirmation requests/closes from the initial state. -/
def runConfOps (ops : List ConfOp) : ConfGlobalState :=
  ops.foldl confStep confInitial

/-- The open dialogs are exactly the one `globalActiveConfirmation`
points at (none when it is null). -/
def confInv (s : ConfGlobalState) : Prop :=
  s.openDialogs = (match s.active with | some h => [h] | none => [])

/-! ## Confirmation dialog state machine
(`setLoading` lines 1800–1824, `closeConfirmation` lines 1826–1832,
`handleConfirmation` lines 1835–1914, button `onclick`s lines 1990–2054,
`cleanupAndClose` lines 2133–2145, Escape branch lines 122–129 of
part_000)

The booleans record the observable facts the claims are about.
`attached` is `toastElement.parentNode` being non-null; within one
synchronous handler run it stays true even after `removeToast`, which
detaches the element only 400 ms later. -/

structure DialogState where
  /-- `isLoading` local; also mirrored by the confirm button's `loading` class. -/
  isLoading : Bool
  /-- `useLoading` local (set once `setLoading` has ever run). -/
  useLoading : Bool
  /-- `toastElement.parentNode` non-null. -/
  attached : Bool
  /-- `globalActiveConfirmation` has been reset to null. -/
  globalCleared : Bool
  overlayRemoved : Bool
  /-- The document-level `handleTabKey` keydown listener is still attached. -/
  tabHandlerAttached : Bool
  /-- The deferred `previouslyFocused.focus()` restore has been scheduled. -/
  focusRestoreScheduled : Bool
  /-- `removeToast(toastElement)` has run: the exit animation is playing
  and the dialog is closing. -/
  exiting : Bool
  deriving DecidableEq

/-- Dialog state right after `conf` finishes opening a dialog (no initial
`loading` option). -/
def openedDialog : DialogState :=
  { isLoading := false, useLoading := false, attached := true,
    globalCleared := false, overlayRemoved := false,
    tabHandlerAttached := true, focusRestoreScheduled := false,
    exiting := false }

/-- `setLoading(loading)`: marks manual control (`useLoading = true`) and
sets `isLoading`; the rest of its body toggles button styling. -/
def setLoadingFn (b : Bool) (s : DialogState) : DialogState :=
  { s with useLoading := true, isLoading := b }

/-- The original `closeConfirmation` closure: when the element is still
attached, null the global slot, remove the overlay and start
`removeToast` on the dialog.  It does not touch the Tab handler or the
saved focus. -/
def closeConf (s : DialogState) : DialogState :=
  if s.attached then
    { s with globalCleared := true, overlayRemoved := true, exiting := true }
  else s

/-- `cleanupAndClose`: removes the `handleTabKey` listener, schedules the
asynchronous focus restore (`setTimeout(() => previouslyFocused.focus(),
100)`), then runs the original `closeConfirmation`.  This function is
installed only as `controlObject.close`. -/
def cleanupAndClose (s : DialogState) : DialogState :=
  closeConf { s with tabHandlerAttached := false, focusRestoreScheduled := true }

/-- Shapes of a confirm handler run, as `handleConfirmation(true)`
distinguishes them.  The same structure is used verbatim for both the
`options.onConfirm` branch and the unified `resultCallback` branch of
the source. -/
inductive HandlerKind
  /-- Neither `onConfirm` nor a unified callback was supplied. -/
  | noHandler
  /-- Handler returns a non-thenable; `setsLoading` says whether it called
  `setLoading(true)` while running. -/
  | syncReturn (setsLoading : Bool)
  /-- Handler throws synchronously; `setsLoadingFirst` says whether it
  called `setLoading(true)` before throwing. -/
  | syncThrows (setsLoadingFirst : Bool)
  /-- Handler returns an awaitable that resolves. -/
  | asyncResolves
  /-- Handler returns an awaitable that rejects. -/
  | asyncRejects
  deriving DecidableEq

/-- Embeds `handleConfirmation(true)` (identically for the `onConfirm`
and unified-callback branches): try the handler; a thenable result
auto-enables loading unless the caller manages it, and on resolution
clears loading and closes if still attached; a non-thenable result
closes unless the caller took loading control; a throw or rejection is
caught, loading force-cleared and the dialog closed. -/
def handleConfirmTrue (k : HandlerKind) (s : DialogState) : DialogState :=
  match k with
  | HandlerKind.noHandler => closeConf s
  | HandlerKind.syncReturn sl =>
      let s1 := if sl then setLoadingFn true s else s
      if s1.useLoading then s1 else closeConf s1
  | HandlerKind.syncThrows sl =>
      let s1 := if sl then setLoadingFn true s else s
      closeConf (setLoadingFn false s1)
  | HandlerKind.asyncResolves =>
      let s1 := if s.useLoading then s else setLoadingFn true s
      if s1.attached then closeConf (setLoadingFn false s1) else s1
  | HandlerKind.asyncRejects =>
      let s1 := if s.useLoading then s else setLoadingFn true s
      closeConf (setLoadingFn false s1)

/-- Embeds `handleConfirmation(false)`: refused while loading; otherwise
the cancel handler (if any) runs with its errors swallowed, then the
original `closeConfirmation` runs. -/
def handleCancel (s : DialogState) : DialogState :=
  if s.isLoading then s else closeConf s

/-- The five ways a confirmation can be closed. -/
inductive ClosePath
  | confirmBtn
  | cancelBtn
  | closeBtn
  | escapeKey
  | handleClose
  deriving DecidableEq

/-- What each close path actually runs in the source: the three buttons
go through `handleConfirmation`, which calls the *original*
`closeConfirmation` closure; the Escape branch calls
`globalActiveConfirmation.close()` and the returned handle's `close` is
`controlObject.close` — both of which were reassigned to
`cleanupAndClose`.  Button and Escape paths are gated on not loading
(Escape checks for the confirm button's `loading` class). -/
def closeVia (p : ClosePath) (k : HandlerKind) (s : DialogState) : DialogState :=
  match p with
  | ClosePath.confirmBtn => if s.isLoading then s else handleConfirmTrue k s
  | ClosePath.cancelBtn => if s.isLoading then s else handleCancel s
  | ClosePath.closeBtn => if s.isLoading then s else handleCancel s
  | ClosePath.escapeKey => if s.isLoading then s else cleanupAndClose s
  | ClosePath.handleClose => cleanupAndClose s

/-! ## Global Escape dispatch over containers
(`setupKeyboardNavigation`, part_000 lines 114–144)

With no active confirmation, the handler iterates over **every**
`.toastify-pro-container` in the document and, in each one that holds
non-confirmation toasts, calls `removeToast` on the **last** toast in
DOM order.  Containers are given as lists of element ids in DOM order;
ids number admissions (larger id = admitted later), and `show` with the
default `newestOnTop = true` inserts new elements at the *front* of DOM
order (see `showToast`). -/

def escapeDismissed (containers : List (List Nat)) : List Nat :=
  containers.filterMap (fun c => c.getLast?)

/-! ## Helper lemmas -/

theorem mkToast_id (i : Nat) : (mkToast i).id = i := rfl

theorem mkToast_handle (i : Nat) : (mkToast i).timeoutHandle = some i := rfl

theorem find?_mkToast_range'_none (e : Nat) :
    ∀ a n : Nat, e < a →
      ((List.range' a n).map mkToast).find? (fun t => t.id == e) = none := by
  intro a n
  induction n generalizing a with
  | zero => intro _; rfl
  | succ n ih =>
      intro h
      rw [List.range'_succ, List.map_cons,
        List.find?_cons_of_neg _ (by simp [mkToast]; omega)]
      exact ih (a + 1) (by omega)

theorem evictOnce_stateModel (N m : Nat) (hN : 0 < N) (hm : N ≤ m) :
    evictOnce (stateModel N m) =
      { stateModel N m with
          activeToasts := (List.range' (m - N + 1) (N - 1)).map mkToast,
          exitScheduled := List.range (m - N + 1) } := by
  have hmin : min m N = N := Nat.min_eq_right hm
  obtain ⟨N', rfl⟩ : ∃ N', N = N' + 1 := ⟨N - 1, by omega⟩
  have hrange : List.range' (m - (N' + 1)) (N' + 1) =
      (m - (N' + 1)) :: List.range' (m - (N' + 1) + 1) N' := by
    rw [List.range'_succ]
  unfold evictOnce stateModel
  simp only [hmin, hrange, List.map_cons]
  unfold removeToast
  simp only [mkToast_id]
  have hdom : (m - (N' + 1)) ∈ (List.range m).reverse := by
    rw [List.mem_reverse, List.mem_range]; omega
  rw [if_pos hdom]
  rw [find?_mkToast_range'_none (m - (N' + 1)) (m - (N' + 1) + 1) N' (by omega)]
  simp [List.range_succ]

theorem stateModel_len (N m : Nat) :
    (stateModel N m).activeToasts.length = min m N := by
  simp [stateModel]

theorem showToast_stateModel (N m : Nat) (hN : 0 < N) :
    showToast (stateModel N m) N true 3000 = stateModel N (m + 1) := by
  have h3000 : (0 : Nat) < 3000 := by omega
  rcases Nat.lt_or_ge m N with hm | hm
  · -- below the limit: no eviction
    have hmin : min m N = m := Nat.min_eq_left (Nat.le_of_lt hm)
    have hmin' : min (m + 1) N = m + 1 := Nat.min_eq_left hm
    have hcond : ¬ (0 < N ∧ N ≤ (stateModel N m).activeToasts.length) := by
      rw [stateModel_len, hmin]; omega
    simp only [showToast]
    rw [if_neg hcond, if_pos h3000]
    rcases Nat.eq_zero_or_pos m with rfl | hmpos
    · simp only [stateModel, hmin']
      simp [mkToast, List.range_succ]
    · have hne : True ∧ (stateModel N m).dom ≠ [] := by
        refine ⟨trivial, ?_⟩
        simp only [stateModel]
        simp [← List.length_pos]; omega
      rw [if_pos hne]
      simp only [stateModel, hmin, hmin', Nat.sub_self, InstanceState.mk.injEq]
      refine ⟨?_, ?_, ?_, trivial, trivial, trivial⟩
      · rw [List.range'_concat]
        simp [mkToast]
      · simp [List.range_succ]
      · simp [List.range_succ]
  · -- at or above the limit: evict exactly one, then admit
    obtain ⟨N', rfl⟩ : ∃ N', N = N' + 1 := ⟨N - 1, by omega⟩
    have hmin' : min (m + 1) (N' + 1) = N' + 1 := Nat.min_eq_right (by omega)
    have hcond : 0 < N' + 1 ∧ N' + 1 ≤ (stateModel (N' + 1) m).activeToasts.length := by
      rw [stateModel_len, Nat.min_eq_right hm]; omega
    have hlen : (stateModel (N' + 1) m).activeToasts.length - (N' + 1) + 1 = 1 := by
      rw [stateModel_len, Nat.min_eq_right hm]; omega
    simp only [showToast]
    rw [if_pos hcond, hlen,
      show evictLoop 1 (stateModel (N' + 1) m) = evictOnce (stateModel (N' + 1) m) from rfl,
      evictOnce_stateModel (N' + 1) m hN hm, if_pos h3000]
    have hne : True ∧ ({ stateModel (N' + 1) m with
        activeToasts := (List.range' (m - (N' + 1) + 1) (N' + 1 - 1)).map mkToast,
        exitScheduled := List.range (m - (N' + 1) + 1) } : InstanceState).dom ≠ [] := by
      refine ⟨trivial, ?_⟩
      simp only [stateModel]
      simp [← List.length_pos]; omega
    rw [if_pos hne]
    simp only [stateModel, hmin', Nat.add_sub_cancel, InstanceState.mk.injEq]
    refine ⟨?_, ?_, ?_, ?_, trivial, trivial⟩
    · rw [show m + 1 - (N' + 1) = m - (N' + 1) + 1 by omega, List.range'_concat]
      simp only [List.map_append, List.map_cons, List.map_nil, Nat.one_mul]
      rw [show m - (N' + 1) + 1 + N' = m by omega]
      simp [mkToast]
    · simp [List.range_succ]
    · simp [List.range_succ]
    · rw [show m + 1 - (N' + 1) = m - (N' + 1) + 1 by omega]

theorem admitSeq_eq_stateModel (N : Nat) (hN : 0 < N) :
    ∀ m, admitSeq N m = stateModel N m := by
  intro m
  induction m with
  | zero => simp [admitSeq, initState, stateModel]
  | succ m ih =>
      show showToast (admitSeq N m) N true 3000 = stateModel N (m + 1)
      rw [ih, showToast_stateModel N m hN]

theorem find?_of_mem_nodup (l : List ToastData) (t : ToastData)
    (hnd : (l.map ToastData.id).Nodup) (hmem : t ∈ l) :
    l.find? (fun u => u.id == t.id) = some t := by
  induction l with
  | nil => cases hmem
  | cons a l ih =>
      simp only [List.map_cons, List.nodup_cons] at hnd
      rcases List.mem_cons.mp hmem with rfl | hmem'
      · exact List.find?_cons_of_pos _ (by simp)
      · have hne : ¬ ((fun u => u.id == t.id) a = true) := by
          simp only [beq_iff_eq]
          intro h
          exact hnd.1 (h ▸ List.mem_map_of_mem ToastData.id hmem')
        rw [@List.find?_cons_of_neg _ (fun u => u.id == t.id) a l hne]
        exact ih hnd.2 hmem'

theorem eraseP_ids_ne (l : List ToastData) (t : ToastData)
    (hnd : (l.map ToastData.id).Nodup) (hmem : t ∈ l) :
    ∀ u ∈ l.eraseP (fun v => v.id == t.id), u.id ≠ t.id := by
  induction l with
  | nil => cases hmem
  | cons a l ih =>
      simp only [List.map_cons, List.nodup_cons] at hnd
      intro u hu
      by_cases ha : (fun v => v.id == t.id) a = true
      · rw [@List.eraseP_cons_of_pos _ a l (fun v => v.id == t.id) ha] at hu
        have hat : a.id = t.id := by simpa using ha
        intro hut
        exact hnd.1 (hat ▸ hut ▸ List.mem_map_of_mem ToastData.id hu)
      · rw [@List.eraseP_cons_of_neg _ a l (fun v => v.id == t.id) ha] at hu
        rcases List.mem_cons.mp hu with rfl | hu'
        · simpa using ha
        · have hmem' : t ∈ l := by
            rcases List.mem_cons.mp hmem with rfl | h
            · exact absurd (by simp) ha
            · exact h
          exact ih hnd.2 hmem' u hu'

theorem confInv_step (s : ConfGlobalState) (op : ConfOp) (h : confInv s) :
    confInv (confStep s op) := by
  cases op with
  | confFrom i =>
      unfold confInv at h ⊢
      cases hs : s.active with
      | none =>
          rw [hs] at h
          simp [confStep, confCall, hs, h]
      | some v => simp [confStep, confCall, hs, hs ▸ h]
  | closeActive =>
      unfold confInv at h ⊢
      cases hs : s.active with
      | none => simp [confStep, confCloseActive, hs, hs ▸ h]
      | some v =>
          rw [hs] at h
          simp [confStep, confCloseActive, hs, h]

theorem runConfOps_inv (ops : List ConfOp) : confInv (runConfOps ops) := by
  have main : ∀ (l : List ConfOp) (s : ConfGlobalState),
      confInv s → confInv (l.foldl confStep s) := by
    intro l
    induction l with
    | nil => intro s h; exact h
    | cons op l ih =>
        intro s h
        exact ih (confStep s op) (confInv_step s op h)
  exact main ops confInitial (by simp [confInv, confInitial])

/-! ## Claim theorems -/

/-- C1: At most one active confirmation exists process-wide at any time:
over every sequence of confirmation requests and closes, issued from any
instances, at most one confirmation dialog is open; and a `conf`/`confirm`
call made while one is open creates no new dialog — it only replays the
shake (attention) animation on the existing dialog and returns the
existing handle unchanged — and behaves identically no matter which
instance issues it. -/
theorem conf_single_flight (ops : List ConfOp) (s : ConfGlobalState)
    (hid i j : Nat) (hactive : s.active = some hid) :
    (runConfOps ops).openDialogs.length ≤ 1 ∧
    (confCall i s).2 = hid ∧
    (confCall i s).1.active = some hid ∧
    (confCall i s).1.openDialogs = s.openDialogs ∧
    (confCall i s).1.createdCount = s.createdCount ∧
    (confCall i s).1 = { s with shakes := s.shakes + 1 } ∧
    confCall i s = confCall j s := by
  refine ⟨?_, ?_, ?_, ?_, ?_, ?_, ?_⟩ <;>
    first
      | (have h := runConfOps_inv ops
         unfold confInv at h
         cases hs : (runConfOps ops).active <;> simp [hs] at h <;> simp [h])
      | simp [confCall, hactive]

theorem conf_single_flight_witness :
    ((confCall 0 confInitial).1.active = some 0) ∧
    ((runConfOps [ConfOp.confFrom 0, ConfOp.confFrom 1]).openDialogs.length ≤ 1 ∧
      (confCall 2 (confCall 0 confInitial).1).2 = 0 ∧
      (confCall 2 (confCall 0 confInitial).1).1.active = some 0 ∧
      (confCall 2 (confCall 0 confInitial).1).1.openDialogs = (confCall 0 confInitial).1.openDialogs ∧
      (confCall 2 (confCall 0 confInitial).1).1.createdCount = (confCall 0 confInitial).1.createdCount ∧
      (confCall 2 (confCall 0 confInitial).1).1 =
        { (confCall 0 confInitial).1 with shakes := (confCall 0 confInitial).1.shakes + 1 } ∧
      confCall 2 (confCall 0 confInitial).1 = confCall 3 (confCall 0 confInitial).1) :=
  ⟨by decide,
   conf_single_flight [ConfOp.confFrom 0, ConfOp.confFrom 1]
     (confCall 0 confInitial).1 0 2 3 (by decide)⟩

theorem map_id_mkToast (l : List Nat) : (l.map mkToast).map ToastData.id = l := by
  rw [List.map_map]
  have hcomp : ToastData.id ∘ mkToast = id := funext (fun i => rfl)
  rw [hcomp, List.map_id]

/-- C2: for every `maxToasts = N > 0`, after admitting `N + k`
notifications to one position the `N` surviving records are exactly the
`N` most recently admitted (ids `k, …, N+k-1`, in order), the `k` oldest
were evicted oldest-first (their exit animations started in admission
order), and after any admission the active count is at most `N`. -/
theorem maxToasts_eviction_bound (N k : Nat) (hN : 0 < N) :
    (admitSeq N (N + k)).activeToasts.map ToastData.id = List.range' k N ∧
    (admitSeq N (N + k)).activeToasts.length = N ∧
    (admitSeq N (N + k)).exitScheduled = List.range k ∧
    ∀ m, getActiveCount (admitSeq N m) ≤ N := by
  have hmin : min (N + k) N = N := Nat.min_eq_right (Nat.le_add_right N k)
  have he : N + k - N = k := by omega
  refine ⟨?_, ?_, ?_, ?_⟩
  · rw [admitSeq_eq_stateModel N hN]
    simp only [stateModel, hmin, he]
    exact map_id_mkToast _
  · rw [admitSeq_eq_stateModel N hN, stateModel_len, hmin]
  · rw [admitSeq_eq_stateModel N hN]
    simp only [stateModel, hmin, he]
  · intro m
    rw [show getActiveCount (admitSeq N m) = (admitSeq N m).activeToasts.length from rfl,
      admitSeq_eq_stateModel N hN, stateModel_len]
    exact Nat.min_le_right m N

theorem maxToasts_eviction_bound_witness :
    0 < 2 ∧
    ((admitSeq 2 3).activeToasts.map ToastData.id = List.range' 1 2 ∧
      (admitSeq 2 3).activeToasts.length = 2 ∧
      (admitSeq 2 3).exitScheduled = List.range 1 ∧
      getActiveCount (admitSeq 2 5) ≤ 2) :=
  ⟨by decide,
   (maxToasts_eviction_bound 2 1 (by decide)).1,
   (maxToasts_eviction_bound 2 1 (by decide)).2.1,
   (maxToasts_eviction_bound 2 1 (by decide)).2.2.1,
   (maxToasts_eviction_bound 2 1 (by decide)).2.2.2 5⟩

/-- C3: the claim fails on the code.  `show`'s eviction loop shifts the
oldest record out of `activeToasts` *before* calling `removeToast`, whose
`findIndex` then misses, so its `clearTimeout` branch is skipped: with
`maxToasts = 1` and `timeout = 3000`, after the second admission the
first toast's record is gone and its exit is scheduled, yet its
auto-dismiss timer (id 0) is still pending and will later fire against
the already-removed record. -/
theorem eviction_leaves_timer_pending :
    (admitSeq 1 2).activeToasts = [⟨1, some 1⟩] ∧
    (admitSeq 1 2).exitScheduled = [0] ∧
    0 ∈ (admitSeq 1 2).pendingTimers := by decide

/-- C4: the claim fails on the code.  A second pointer-enter without an
intervening resume is not a no-op: `clearTimeout` leaves the stored
`toastData.timeout` id truthy, so the `mouseenter` guard passes again and
elapsed time is subtracted a second time.  Countdown of 3000 ms started
at t=0 and paused at t=1000 leaves 2000 ms remaining; pausing again at
t=1500 drops `remainingTime` to 500 ms — below the true remaining
2000 ms. -/
theorem double_pause_double_subtracts :
    (pointerEnter 1000 (startCountdown 0 (timerInit 3000))).remainingTime = 2000 ∧
    (pointerEnter 1500 (pointerEnter 1000 (startCountdown 0 (timerInit 3000)))).remainingTime = 500 ∧
    (pointerEnter 1500 (pointerEnter 1000 (startCountdown 0 (timerInit 3000)))).isPaused = true ∧
    (pointerEnter 1500 (pointerEnter 1000 (startCountdown 0 (timerInit 3000)))).timerScheduled = false := by
  decide

/-- C5 counterexample: `pausedExpired` is a reachable paused state with
`remainingTime ≤ 0`; pointer-leave on it does not fire the completion
callback (it emits no effect at all) and leaves the state unchanged,
refuting the claim that resume immediately fires completion. -/
theorem resume_expired_fires_nothing :
    pausedExpired.isPaused = true ∧
    pausedExpired.remainingTime ≤ 0 ∧
    pointerLeave 3000 pausedExpired = (pausedExpired, []) := by decide

/-- C5 (amended): for every paused toast with `remainingTime ≤ 0`,
pointer-leave is a no-op — the countdown is not restarted and the
completion callback is not fired; the state is unchanged and no effect is
emitted. -/
theorem resume_expired_noop (now : Int) (s : HoverTimerState)
    (hp : s.isPaused = true) (hr : s.remainingTime ≤ 0) :
    pointerLeave now s = (s, []) := by
  have hcond : ¬ (s.isPaused = true ∧ 0 < s.remainingTime) := by
    rintro ⟨-, h2⟩; omega
  simp only [pointerLeave]
  rw [if_neg hcond]

theorem resume_expired_noop_witness :
    pausedExpired.isPaused = true ∧ pausedExpired.remainingTime ≤ 0 ∧
    pointerLeave 9999 pausedExpired = (pausedExpired, []) :=
  ⟨by decide, by decide, resume_expired_noop 9999 pausedExpired (by decide) (by decide)⟩

/-- C6: for every confirm handler (identically for the `onConfirm` and
unified-callback channels) that throws synchronously — whether or not it
called `setLoading(true)` first — or returns an awaitable that rejects,
the error path forces loading to false and closes the dialog (exit
started, overlay removed, `globalActiveConfirmation` cleared): the dialog
is never left open stuck with `loading = true`. -/
theorem failing_confirm_handler_closes (k : HandlerKind) (s : DialogState)
    (hatt : s.attached = true)
    (hk : (∃ b, k = HandlerKind.syncThrows b) ∨ k = HandlerKind.asyncRejects) :
    (handleConfirmTrue k s).isLoading = false ∧
    (handleConfirmTrue k s).exiting = true ∧
    (handleConfirmTrue k s).globalCleared = true ∧
    (handleConfirmTrue k s).overlayRemoved = true := by
  rcases hk with ⟨b, rfl⟩ | rfl
  · cases b <;> simp [handleConfirmTrue, setLoadingFn, closeConf, hatt]
  · by_cases hu : s.useLoading <;>
      simp [handleConfirmTrue, setLoadingFn, closeConf, hatt, hu]

theorem failing_confirm_handler_closes_witness :
    openedDialog.attached = true ∧
    ((handleConfirmTrue HandlerKind.asyncRejects openedDialog).isLoading = false ∧
      (handleConfirmTrue HandlerKind.asyncRejects openedDialog).exiting = true ∧
      (handleConfirmTrue HandlerKind.asyncRejects openedDialog).globalCleared = true ∧
      (handleConfirmTrue HandlerKind.asyncRejects openedDialog).overlayRemoved = true) :=
  ⟨by decide,
   failing_confirm_handler_closes HandlerKind.asyncRejects openedDialog
     (by decide) (Or.inr rfl)⟩

/-- C7: the claim fails on the code.  Only the returned handle's `close`
(and the Escape branch, which invokes `globalActiveConfirmation.close`,
i.e. the reassigned `cleanupAndClose`) performs the full teardown; the
confirm, cancel and close buttons go through `handleConfirmation`, which
captured the *original* `closeConfirmation` closure, so on those paths the
dialog closes and the ActiveConfirmation reference is cleared but the Tab
keydown handler stays attached and the focus restore is never scheduled. -/
theorem confirm_button_skips_teardown :
    (closeVia ClosePath.confirmBtn HandlerKind.noHandler openedDialog).exiting = true ∧
    (closeVia ClosePath.confirmBtn HandlerKind.noHandler openedDialog).globalCleared = true ∧
    (closeVia ClosePath.confirmBtn HandlerKind.noHandler openedDialog).tabHandlerAttached = true ∧
    (closeVia ClosePath.confirmBtn HandlerKind.noHandler openedDialog).focusRestoreScheduled = false ∧
    (closeVia ClosePath.cancelBtn HandlerKind.noHandler openedDialog).tabHandlerAttached = true ∧
    (closeVia ClosePath.closeBtn HandlerKind.noHandler openedDialog).tabHandlerAttached = true ∧
    (closeVia ClosePath.escapeKey HandlerKind.noHandler openedDialog).tabHandlerAttached = false ∧
    (closeVia ClosePath.escapeKey HandlerKind.noHandler openedDialog).focusRestoreScheduled = true ∧
    (closeVia ClosePath.handleClose HandlerKind.noHandler openedDialog).tabHandlerAttached = false ∧
    (closeVia ClosePath.handleClose HandlerKind.noHandler openedDialog).focusRestoreScheduled = true := by
  decide

/-- C8: the claim fails on the code.  With two toasts admitted to one
position under the default `newestOnTop = true`, DOM order is `[1, 0]`
(newest first) and the Escape handler dismisses the *last* DOM child —
toast 0, the oldest, not the most recently admitted toast 1; moreover
with toasts in two containers it dismisses one toast from *each*
container, not exactly one overall. -/
theorem escape_dismisses_oldest_per_container :
    (admitSeq 0 2).dom = [1, 0] ∧
    escapeDismissed [(admitSeq 0 2).dom] = [0] ∧
    escapeDismissed [[0], [1]] = [0, 1] := by decide

/-- C9: exit-animation selection is a pure function of the position
string; on every valid position the selected animation's final keyframe
moves bottom-anchored positions downward, top-anchored positions upward
and center downward with a strictly smaller scale target than the other
exits, and any position string anchored left or right (but not top or
bottom) exits sideways. -/
theorem exit_animation_matches_position :
    exitFinal "bottom-left" = some ⟨0, 200, 80⟩ ∧
    exitFinal "bottom-right" = some ⟨0, 200, 80⟩ ∧
    exitFinal "bottom-center" = some ⟨0, 200, 80⟩ ∧
    exitFinal "top-left" = some ⟨0, -200, 80⟩ ∧
    exitFinal "top-right" = some ⟨0, -200, 80⟩ ∧
    exitFinal "top-center" = some ⟨0, -200, 80⟩ ∧
    exitFinal "center" = some ⟨0, 150, 60⟩ ∧
    (∀ t tb : FinalTransform, exitFinal "center" = some t →
      exitFinal "bottom-center" = some tb →
      0 < t.dy ∧ t.scalePct < tb.scalePct) ∧
    (∀ p : String, jsIncludes p "bottom" = false → jsIncludes p "top" = false →
      jsIncludes p "left" = true ∨ jsIncludes p "right" = true →
      ∃ t : FinalTransform, exitFinal p = some t ∧ t.dy = 0 ∧ t.dx ≠ 0) := by
  refine ⟨by decide, by decide, by decide, by decide, by decide, by decide,
    by decide, ?_, ?_⟩
  · intro t tb ht htb
    rw [show exitFinal "center" = some ⟨0, 150, 60⟩ from by decide] at ht
    rw [show exitFinal "bottom-center" = some ⟨0, 200, 80⟩ from by decide] at htb
    cases ht; cases htb
    exact ⟨by decide, by decide⟩
  · intro p hb htp hlr
    by_cases hl : jsIncludes p "left" = true
    · refine ⟨⟨-300, 0, 80⟩, ?_, rfl, by decide⟩
      simp [exitFinal, swipeAnimationFor, hb, htp, hl, keyframeFinal]
    · have hl2 : jsIncludes p "left" = false := by
        cases hv : jsIncludes p "left"
        · rfl
        · exact absurd hv hl
      have hr : jsIncludes p "right" = true := by
        rcases hlr with h | h
        · exact absurd h hl
        · exact h
      refine ⟨⟨300, 0, 80⟩, ?_, rfl, by decide⟩
      simp [exitFinal, swipeAnimationFor, hb, htp, hl2, hr, keyframeFinal]

theorem exit_animation_matches_position_witness :
    jsIncludes "left" "bottom" = false ∧ jsIncludes "left" "top" = false ∧
    (jsIncludes "left" "left" = true ∨ jsIncludes "left" "right" = true) ∧
    (∃ t : FinalTransform, exitFinal "left" = some t ∧ t.dy = 0 ∧ t.dx ≠ 0) :=
  ⟨by decide, by decide, Or.inl (by decide),
   exit_animation_matches_position.2.2.2.2.2.2.2.2 "left"
     (by decide) (by decide) (Or.inl (by decide))⟩

theorem removeToast_found (s : InstanceState) (t : ToastData)
    (hdom : t.id ∈ s.dom)
    (hfind : s.activeToasts.find? (fun u => u.id == t.id) = some t) :
    removeToast s t.id =
      { s with activeToasts := s.activeToasts.eraseP (fun u => u.id == t.id),
               pendingTimers := clearStoredTimeout s.pendingTimers t.timeoutHandle,
               exitScheduled := s.exitScheduled ++ [t.id] } := by
  unfold removeToast
  rw [if_pos hdom, hfind]

/-- C10: for every active toast (its record tracked, its element
attached, element identities distinct), `removeToast` immediately cancels
its stored auto-dismiss timer and drops its record from `activeToasts`,
so `getActiveCount` decreases by one at the moment of the call, while the
element is still in the DOM and its exit animation (with the 400 ms
deferred detach) has just been scheduled. -/
theorem dismiss_immediate_effects (s : InstanceState) (t : ToastData)
    (hmem : t ∈ s.activeToasts)
    (hdom : t.id ∈ s.dom)
    (hnd : (s.activeToasts.map ToastData.id).Nodup) :
    getActiveCount (removeToast s t.id) = getActiveCount s - 1 ∧
    (∀ u ∈ (removeToast s t.id).activeToasts, u.id ≠ t.id) ∧
    (removeToast s t.id).dom = s.dom ∧
    t.id ∈ (removeToast s t.id).exitScheduled ∧
    ∀ h, t.timeoutHandle = some h → h ∉ (removeToast s t.id).pendingTimers := by
  have hfind := find?_of_mem_nodup s.activeToasts t hnd hmem
  rw [removeToast_found s t hdom hfind]
  refine ⟨?_, ?_, rfl, ?_, ?_⟩
  · show (s.activeToasts.eraseP (fun u => u.id == t.id)).length =
      s.activeToasts.length - 1
    exact List.length_eraseP_of_mem hmem (by simp)
  · exact eraseP_ids_ne s.activeToasts t hnd hmem
  · simp
  · intro h hh
    simp [clearStoredTimeout, hh, List.mem_filter]

theorem dismiss_immediate_effects_witness :
    ((⟨0, some 0⟩ : ToastData) ∈ (admitSeq 0 1).activeToasts) ∧
    ((0 : Nat) ∈ (admitSeq 0 1).dom) ∧
    ((admitSeq 0 1).activeToasts.map ToastData.id).Nodup ∧
    (getActiveCount (removeToast (admitSeq 0 1) 0) = getActiveCount (admitSeq 0 1) - 1 ∧
      (∀ u ∈ (removeToast (admitSeq 0 1) 0).activeToasts, u.id ≠ 0) ∧
      (removeToast (admitSeq 0 1) 0).dom = (admitSeq 0 1).dom ∧
      (0 : Nat) ∈ (removeToast (admitSeq 0 1) 0).exitScheduled ∧
      ∀ h, (some 0 : Option Nat) = some h → h ∉ (removeToast (admitSeq 0 1) 0).pendingTimers) :=
  ⟨by decide, by decide, by decide,
   dismiss_immediate_effects (admitSeq 0 1) ⟨0, some 0⟩
     (by decide) (by decide) (by decide)⟩

end ToastifyPro

